import Mathlib

/-!
Shallow embedding of the QuickBooks Online API client:
the error normalizer (src/errors.ts), the OAuth expiry check (src/oauth.ts),
and the client pipeline (rate limiter, token refresh, request retry logic,
query / queryAll pagination) from src/client.ts.

External effects are modelled explicitly:
* HTTP responses come from an oracle function `Env.responses : Nat → Resp α`
  indexed by the number of fetches already performed;
* outcomes of the OAuth refresh endpoint come from
  `Env.refreshes : Nat → Except QuickBooksError QuickBooksTokens`;
* the pluggable token store is a field `stored : Option QuickBooksTokens`
  of the state, together with counters for its `storeTokens` / `clearTokens`
  calls;
* `setTimeout` waits are recorded in a list `sleeps`;
* wall-clock time is held fixed during one traced operation
  (`Env.now` in epoch seconds for the token expiry check,
  `Env.nowMs` in milliseconds for the rate window), so the timestamp pushed
  after a rate-limit wait is modelled as `nowMs` as well.

JavaScript `throw` of arbitrary values is modelled by the error type `ErrVal`;
a thrown `QuickBooksError` is the constructor `ErrVal.qb`.
-/

namespace QB

-- Error codes from QB_ERROR_CODES in src/errors.ts.
namespace QB_ERROR_CODES

def TOKEN_EXPIRED : String := "QB_TOKEN_EXPIRED"

def REFRESH_FAILED : String := "QB_REFRESH_FAILED"

def UNAUTHORIZED : String := "QB_UNAUTHORIZED"

def INVALID_REALM : String := "QB_INVALID_REALM"

def API_ERROR : String := "QB_API_ERROR"

def RATE_LIMIT : String := "QB_RATE_LIMIT"

def NETWORK_ERROR : String := "QB_NETWORK_ERROR"

def INVALID_CONFIG : String := "QB_INVALID_CONFIG"

def TOKEN_STORE_ERROR : String := "QB_TOKEN_STORE_ERROR"

end QB_ERROR_CODES

/-- The `QuickBooksError` class from src/errors.ts: message, code and optional
HTTP status.  The `details` field (which just carries the raw triggering value)
is not modelled. -/
structure QuickBooksError where
  message : String
  code : String
  status : Option Int
  deriving DecidableEq

/-- A JavaScript thrown value, as discriminated by `handleQuickBooksError`:
an actual `QuickBooksError`, a `TypeError` (as thrown by `fetch`), a plain
object carrying optional numeric `status` and `message` fields, or any
non-object value. -/
inductive ErrVal where
  | qb (e : QuickBooksError)
  | typeError (message : String)
  | obj (status : Option Int) (message : Option String)
  | nonObj
  deriving DecidableEq

/-- List-level helper for JavaScript `String.prototype.includes`:
does `pat` occur at the start of `l`? -/
def strHasPre : List Char → List Char → Bool
  | _, [] => true
  | [], _ :: _ => false
  | c :: cs, p :: ps => c == p && strHasPre cs ps

/-- Does `pat` occur anywhere in `l`? -/
def strHasSub : List Char → List Char → Bool
  | [], pat => pat.isEmpty
  | c :: cs, pat => strHasPre (c :: cs) pat || strHasSub cs pat

/-- JavaScript `s.includes(pat)`. -/
def strIncludes (s pat : String) : Bool :=
  strHasSub s.toList pat.toList

/-- The default ("unexpected error") result of `handleQuickBooksError`. -/
def defaultError : QuickBooksError :=
  ⟨"An unexpected error occurred with QuickBooks integration",
    QB_ERROR_CODES.API_ERROR, some 500⟩

/-- The object branch of `handleQuickBooksError` (src/errors.ts lines 51-94):
status 401/403/429 are mapped to tagged errors; any other (or missing) status
falls through to the token-message pattern check, then to the default. -/
def handleObjErr (status : Option Int) (message : Option String) : QuickBooksError :=
  match status with
  | some 401 =>
    ⟨"Unauthorized access to QuickBooks API", QB_ERROR_CODES.UNAUTHORIZED, some 401⟩
  | some 403 =>
    ⟨"Access forbidden - check API permissions", QB_ERROR_CODES.UNAUTHORIZED, some 403⟩
  | some 429 =>
    ⟨"QuickBooks API rate limit exceeded", QB_ERROR_CODES.RATE_LIMIT, some 429⟩
  | _ =>
    let msg := message.getD ""
    if strIncludes msg "token expired" || strIncludes msg "invalid_token" then
      ⟨"QuickBooks token expired", QB_ERROR_CODES.TOKEN_EXPIRED, some 401⟩
    else
      defaultError

/-- Embeds `handleQuickBooksError` from src/errors.ts: normalizes any thrown value
into a `QuickBooksError`.  A `TypeError` whose message does not mention
"fetch" is still an object with a `message` field, so it falls through to the
object branch with no status. -/
def handleQuickBooksError : ErrVal → QuickBooksError
  | .qb e => e
  | .typeError msg =>
    if strIncludes msg "fetch" then
      ⟨"Network error connecting to QuickBooks API", QB_ERROR_CODES.NETWORK_ERROR, some 0⟩
    else
      handleObjErr none (some msg)
  | .obj status message => handleObjErr status message
  | .nonObj => defaultError

/-- The `QuickBooksTokens` credential record from src/types.ts. -/
structure QuickBooksTokens where
  access_token : String
  refresh_token : String
  realm_id : String
  expires_at : Int
  token_type : Option String
  deriving DecidableEq

/-- Embeds `isTokenExpired` from src/oauth.ts, with the default 300-second buffer:
`now >= expiresAt - 300` where `now` is in epoch seconds. -/
def isTokenExpired (expiresAt : Int) (now : Int) : Bool :=
  decide (expiresAt - 300 ≤ now)

-- Constants from src/client.ts.

/-- Rate limit ceiling: 500 requests per minute. -/
def RATE_LIMIT : Nat := 500

/-- Rate limit window: 60 000 ms. -/
def RATE_LIMIT_WINDOW_MS : Int := 60000

/-- Maximum 429 retries. -/
def MAX_RETRIES : Nat := 3

/-- Initial 429 backoff delay in ms. -/
def INITIAL_RETRY_DELAY_MS : Int := 1000

/-- An HTTP response from the resource API, as consumed by the client:
status, parsed Retry-After header (seconds), the decoded JSON body used when
`response.ok`, and the optional `status` / `message` fields of the decoded
error body (spread into the thrown object on a non-ok response). -/
structure Resp (α : Type) where
  status : Int
  retryAfter : Option Int
  okBody : α
  errStatusField : Option Int
  errMessage : Option String
  deriving DecidableEq

/-- Models `response.ok`: status in [200, 300). -/
def respOk (r : Resp α) : Bool :=
  decide (200 ≤ r.status ∧ r.status < 300)

/-- The object thrown on a non-ok response:
`{ status: response.status, ...errorData }`.  A `status` field present in the
decoded error body overrides the response status (object spread). -/
def rawError (r : Resp α) : ErrVal :=
  .obj (some (r.errStatusField.getD r.status)) r.errMessage

/-- The environment: oracles for the HTTP transport and the OAuth refresh
endpoint, and the (frozen) clock. -/
structure Env (α : Type) where
  responses : Nat → Resp α
  refreshes : Nat → Except QuickBooksError QuickBooksTokens
  now : Int
  nowMs : Int

/-- The mutable state of one client instance plus instrumentation:
oracle positions, the token store contents, store call counters, the refresh
call counter, recorded `setTimeout` waits, the rate-window timestamps, and the
bodies/endpoints sent over HTTP. -/
structure St where
  httpIdx : Nat
  refreshIdx : Nat
  stored : Option QuickBooksTokens
  storeCount : Nat
  clearCount : Nat
  refreshCount : Nat
  sleeps : List Int
  timestamps : List Int
  sent : List String
  deriving DecidableEq

/-- A fresh client state with the given token store contents. -/
def initSt (stored : Option QuickBooksTokens) : St :=
  ⟨0, 0, stored, 0, 0, 0, [], [], []⟩

/-- The filter step of `checkRateLimit`: drop timestamps older than the
window (`now - ts < RATE_LIMIT_WINDOW_MS` kept). -/
def pruneTimestamps (timestamps : List Int) (now : Int) : List Int :=
  timestamps.filter (fun ts => now - ts < RATE_LIMIT_WINDOW_MS)

/-- The wait decision of `checkRateLimit`: if the pruned list has reached the
ceiling, wait `window - (now - oldest) + 100` ms, else proceed immediately. -/
def rateLimitWait (timestamps : List Int) (now : Int) : Option Int :=
  let pruned := pruneTimestamps timestamps now
  if RATE_LIMIT ≤ pruned.length then
    some (RATE_LIMIT_WINDOW_MS - (now - pruned.headI) + 100)
  else
    none

/-- Embeds `checkRateLimit` from src/client.ts lines 74-93: prune, optionally wait
(recorded in `sleeps`), then push the current time.  Time is frozen at
`env.nowMs`, so the post-wait `Date.now()` push is modelled as `env.nowMs`. -/
def checkRateLimit (env : Env α) (st : St) : St :=
  let pruned := pruneTimestamps st.timestamps env.nowMs
  match rateLimitWait st.timestamps env.nowMs with
  | some w =>
    { st with timestamps := pruned ++ [env.nowMs], sleeps := st.sleeps ++ [w] }
  | none =>
    { st with timestamps := pruned ++ [env.nowMs] }

/-- Models `tokenStore.storeTokens`. -/
def storeTokensM (t : QuickBooksTokens) (st : St) : St :=
  { st with stored := some t, storeCount := st.storeCount + 1 }

/-- Models `tokenStore.clearTokens`. -/
def clearTokensM (st : St) : St :=
  { st with stored := none, clearCount := st.clearCount + 1 }

/-- One call to `refreshTokens` (src/oauth.ts): consumes the next outcome of
the refresh oracle and counts the call. -/
def refreshTokensM (env : Env α) (st : St) :
    Except QuickBooksError QuickBooksTokens × St :=
  (env.refreshes st.refreshIdx,
    { st with refreshIdx := st.refreshIdx + 1, refreshCount := st.refreshCount + 1 })

/-- One `fetch` against the resource API: consumes the next oracle response
and records the request body (or endpoint). -/
def fetchM (env : Env α) (body : String) (st : St) : Resp α × St :=
  (env.responses st.httpIdx,
    { st with httpIdx := st.httpIdx + 1, sent := st.sent ++ [body] })

/-- Embeds `getValidTokens` from src/client.ts lines 98-134: fetch stored tokens
(`Unauthorized` failure when absent), refresh when the expiry check fires,
persist the refreshed tokens; when the refresh itself fails with status 401,
clear the store before rethrowing the original error. -/
def getValidTokens (env : Env α) (st : St) : Except ErrVal QuickBooksTokens × St :=
  match st.stored with
  | none =>
    (.error (.qb ⟨"No tokens found - please connect to QuickBooks first",
      QB_ERROR_CODES.UNAUTHORIZED, none⟩), st)
  | some tokens =>
    if isTokenExpired tokens.expires_at env.now then
      match refreshTokensM env st with
      | (.ok newTokens, st) => (.ok newTokens, storeTokensM newTokens st)
      | (.error e, st) =>
        if e.status = some 401 then
          (.error (.qb e), clearTokensM st)
        else
          (.error (.qb e), st)
    else
      (.ok tokens, st)

/-- The backoff delay chosen in the 429 branch of `request`
(src/client.ts lines 172-175): `Retry-After` seconds times 1000 when the
header is present, otherwise `1000 * 2 ^ retryCount`. -/
def delayOf (r : Resp α) (retryCount : Nat) : Int :=
  match r.retryAfter with
  | some ra => ra * 1000
  | none => INITIAL_RETRY_DELAY_MS * 2 ^ retryCount

/-- The tail of `request` when no retry is taken: `response.ok` yields the
decoded body, otherwise the raw `{ status, ...errorData }` object is thrown,
caught, and normalized. -/
def settleResponse (resp : Resp α) (st : St) : Except ErrVal α × St :=
  if respOk resp then
    (.ok resp.okBody, st)
  else
    (.error (.qb (handleQuickBooksError (rawError resp))), st)

/-- The catch-wrapper of `request`: any failure escaping the try block,
including one from a recursive `this.request(...)` call, is normalized by
`handleQuickBooksError`. -/
def wrapCatch : Except ErrVal α × St → Except ErrVal α × St
  | (.error e, st) => (.error (.qb (handleQuickBooksError e)), st)
  | r => r

/-- One attempt of `request` (src/client.ts lines 139-209) without the
recursive calls: rate check, token acquisition, fetch, then either a final
outcome (`Sum.inl`) or the state from which the recursive
`this.request(..., retryCount + 1)` call proceeds (`Sum.inr`).
The 429 branch records the backoff sleep; the 401 branch re-reads the store
and, when tokens are present, refreshes unconditionally and persists - a
refresh failure there escapes to the catch (no `clearTokens`). -/
def requestAttempt (env : Env α) (endpoint : String) (retryCount : Nat)
    (st₀ : St) : (Except ErrVal α × St) ⊕ St :=
  let st := checkRateLimit env st₀
  match getValidTokens env st with
  | (.error e, st) => .inl (.error e, st)
  | (.ok _tokens, st) =>
    let (resp, st) := fetchM env endpoint st
    if resp.status = 429 ∧ retryCount < MAX_RETRIES then
      .inr { st with sleeps := st.sleeps ++ [delayOf resp retryCount] }
    else if resp.status = 401 ∧ retryCount < 1 then
      match st.stored with
      | some _tokens =>
        match refreshTokensM env st with
        | (.ok newTokens, st) => .inr (storeTokensM newTokens st)
        | (.error e, st) =>
          .inl (.error (.qb (handleQuickBooksError (.qb e))), st)
      | none => .inl (settleResponse resp st)
    else
      .inl (settleResponse resp st)

/-- The recursion of `request`, driven by fuel.  The actual code recurses on
`retryCount + 1` and every recursion site is guarded by `retryCount < 3`
(or `< 1`), so the recursion depth from `retryCount = 0` is at most
`MAX_RETRIES + 1`; with that initial fuel the fuel-zero retry branch is
unreachable (see `requestGo_fuel_irrelevant`-style reasoning in the claim
proofs, which only ever step with positive fuel). -/
def requestGo (env : Env α) (endpoint : String) :
    Nat → Nat → St → Except ErrVal α × St
  | 0, retryCount, st =>
    match requestAttempt env endpoint retryCount st with
    | .inl r => r
    | .inr st₂ => (.error (.qb defaultError), st₂)
  | fuel + 1, retryCount, st =>
    match requestAttempt env endpoint retryCount st with
    | .inl r => r
    | .inr st₂ => wrapCatch (requestGo env endpoint fuel (retryCount + 1) st₂)

/-- Embeds `request` as called by the typed entity methods: retryCount starts at 0. -/
def request (env : Env α) (endpoint : String) (st : St) : Except ErrVal α × St :=
  requestGo env endpoint (MAX_RETRIES + 1) 0 st

/-- Envelope unwrapping shared by `query` and `queryAll`
(src/client.ts lines 240-245 and 286-290): drop the pagination metadata keys,
return the first remaining key's array, or `[]` when none remains.
The envelope is modelled as the ordered key/value list of
`data.QueryResponse`, each value being an entity array. -/
def unwrapEnvelope (envelope : List (String × List T)) : List T :=
  match envelope.filter (fun kv =>
      ¬ (kv.1 = "startPosition" ∨ kv.1 = "maxResults" ∨ kv.1 = "totalCount")) with
  | [] => []
  | kv :: _ => kv.2

/-- The page-fetch logic duplicated verbatim between `query`
(src/client.ts lines 214-246) and each `queryAll` iteration (lines 261-290):
`getValidTokens`, then `checkRateLimit`, then a direct `fetch` whose non-ok
response is thrown already-normalized; an ok response is unwrapped.
There is no retry and no 401 refresh-reissue on this path. -/
def fetchQueryPage (env : Env (List (String × List T))) (body : String)
    (st : St) : Except ErrVal (List T) × St :=
  match getValidTokens env st with
  | (.error e, st) => (.error e, st)
  | (.ok _tokens, st) =>
    let st := checkRateLimit env st
    let (resp, st) := fetchM env body st
    if respOk resp then
      (.ok (unwrapEnvelope resp.okBody), st)
    else
      (.error (.qb (handleQuickBooksError (rawError resp))), st)

/-- Embeds `query` from src/client.ts lines 214-246. -/
def query (env : Env (List (String × List T))) (sql : String) (st : St) :
    Except ErrVal (List T) × St :=
  fetchQueryPage env sql st

/-- The paginated query text:
`sql ++ " STARTPOSITION " ++ n ++ " MAXRESULTS " ++ maxResults`. -/
def paginatedSql (sql : String) (startPosition maxResults : Int) : String :=
  sql ++ " STARTPOSITION " ++ toString startPosition ++
    " MAXRESULTS " ++ toString maxResults

/-- The `while (true)` loop of `queryAll` (src/client.ts lines 258-302),
driven by fuel: fetch a page at `startPosition`, append it, stop when the
page is strictly shorter than `maxResults`, else advance by `maxResults`.
`none` means the loop did not complete within `fuel` iterations. -/
def queryAllGo (env : Env (List (String × List T))) (sql : String)
    (maxResults : Int) :
    Nat → Int → List T → St → Option (Except ErrVal (List T) × St)
  | 0, _, _, _ => none
  | fuel + 1, startPosition, allResults, st =>
    match fetchQueryPage env (paginatedSql sql startPosition maxResults) st with
    | (.error e, st) => some (.error e, st)
    | (.ok pageResults, st) =>
      let allResults := allResults ++ pageResults
      if (pageResults.length : Int) < maxResults then
        some (.ok allResults, st)
      else
        queryAllGo env sql maxResults fuel (startPosition + maxResults)
          allResults st

/-- Embeds `queryAll` from src/client.ts lines 253-305: the effective page size is
`min pageSize 1000` and the start position begins at 1. -/
def queryAll (env : Env (List (String × List T))) (sql : String)
    (pageSize : Int) (fuel : Nat) (st : St) :
    Option (Except ErrVal (List T) × St) :=
  queryAllGo env sql (min pageSize 1000) fuel 1 [] st

/-! ### Helper lemmas about the state operations -/

theorem checkRateLimit_eq (env : Env α) (st : St) :
    checkRateLimit env st =
      match rateLimitWait st.timestamps env.nowMs with
      | some w =>
        { st with timestamps := pruneTimestamps st.timestamps env.nowMs ++ [env.nowMs],
                  sleeps := st.sleeps ++ [w] }
      | none =>
        { st with timestamps := pruneTimestamps st.timestamps env.nowMs ++ [env.nowMs] } :=
  rfl

@[simp] theorem checkRateLimit_stored (env : Env α) (st : St) :
    (checkRateLimit env st).stored = st.stored := by
  rw [checkRateLimit_eq]; cases rateLimitWait st.timestamps env.nowMs <;> rfl

@[simp] theorem checkRateLimit_httpIdx (env : Env α) (st : St) :
    (checkRateLimit env st).httpIdx = st.httpIdx := by
  rw [checkRateLimit_eq]; cases rateLimitWait st.timestamps env.nowMs <;> rfl

@[simp] theorem checkRateLimit_refreshIdx (env : Env α) (st : St) :
    (checkRateLimit env st).refreshIdx = st.refreshIdx := by
  rw [checkRateLimit_eq]; cases rateLimitWait st.timestamps env.nowMs <;> rfl

@[simp] theorem checkRateLimit_storeCount (env : Env α) (st : St) :
    (checkRateLimit env st).storeCount = st.storeCount := by
  rw [checkRateLimit_eq]; cases rateLimitWait st.timestamps env.nowMs <;> rfl

@[simp] theorem checkRateLimit_clearCount (env : Env α) (st : St) :
    (checkRateLimit env st).clearCount = st.clearCount := by
  rw [checkRateLimit_eq]; cases rateLimitWait st.timestamps env.nowMs <;> rfl

@[simp] theorem checkRateLimit_refreshCount (env : Env α) (st : St) :
    (checkRateLimit env st).refreshCount = st.refreshCount := by
  rw [checkRateLimit_eq]; cases rateLimitWait st.timestamps env.nowMs <;> rfl

@[simp] theorem checkRateLimit_sent (env : Env α) (st : St) :
    (checkRateLimit env st).sent = st.sent := by
  rw [checkRateLimit_eq]; cases rateLimitWait st.timestamps env.nowMs <;> rfl

@[simp] theorem checkRateLimit_timestamps (env : Env α) (st : St) :
    (checkRateLimit env st).timestamps =
      pruneTimestamps st.timestamps env.nowMs ++ [env.nowMs] := by
  rw [checkRateLimit_eq]; cases rateLimitWait st.timestamps env.nowMs <;> rfl

theorem pruneTimestamps_length_le (timestamps : List Int) (now : Int) :
    (pruneTimestamps timestamps now).length ≤ timestamps.length :=
  List.length_filter_le _ _

/-- Below the ceiling the rate check records no wait. -/
theorem checkRateLimit_no_wait (env : Env α) (st : St)
    (h : st.timestamps.length < RATE_LIMIT) :
    (checkRateLimit env st).sleeps = st.sleeps := by
  have hlt : (pruneTimestamps st.timestamps env.nowMs).length < RATE_LIMIT :=
    lt_of_le_of_lt (pruneTimestamps_length_le _ _) h
  have hw : rateLimitWait st.timestamps env.nowMs = none := by
    unfold rateLimitWait
    exact if_neg (by omega)
  rw [checkRateLimit_eq, hw]

theorem checkRateLimit_timestamps_length_le (env : Env α) (st : St) :
    (checkRateLimit env st).timestamps.length ≤ st.timestamps.length + 1 := by
  rw [checkRateLimit_timestamps, List.length_append]
  have := pruneTimestamps_length_le st.timestamps env.nowMs
  simpa using this

/-- `getValidTokens` on an unexpired stored token: no effect, token returned. -/
theorem getValidTokens_fresh (env : Env α) (st : St) (t : QuickBooksTokens)
    (hstored : st.stored = some t)
    (hfresh : isTokenExpired t.expires_at env.now = false) :
    getValidTokens env st = (.ok t, st) := by
  unfold getValidTokens
  rw [hstored]
  simp [hfresh]

/-! ### Claim C9 -/

/-- Claim C9: `handleQuickBooksError` is total (it is a plain function into
`QuickBooksError`, translated from a body in which every control path
returns) and idempotent: it maps a value that is already a
`QuickBooksError` to itself, hence applying it to an already-normalized
result changes nothing. -/
theorem c9_handleQuickBooksError_idempotent :
    (∀ e : QuickBooksError, handleQuickBooksError (.qb e) = e) ∧
    (∀ v : ErrVal,
      handleQuickBooksError (.qb (handleQuickBooksError v)) =
        handleQuickBooksError v) :=
  ⟨fun _ => rfl, fun _ => rfl⟩

/-! ### Claim C2 -/

/-- A token that expires exactly 300 seconds from now. -/
def tokBoundary : QuickBooksTokens :=
  ⟨"access", "refresh", "realm", 1300, none⟩

/-- A follow-up token with a far-future expiry. -/
def tokFresh : QuickBooksTokens :=
  ⟨"access2", "refresh2", "realm", 1000000000, none⟩

/-- Environment for the C2 counterexample: clock at 1000 s, refresh endpoint
succeeding. -/
def envC2 : Env Unit :=
  ⟨fun _ => ⟨200, none, (), none, none⟩, fun _ => .ok tokFresh, 1000, 0⟩

/-- Claim C2 counterexample: at the exact boundary
`expires_at = now + 300` (here 1300 = 1000 + 300) the code DOES refresh:
`getValidTokens` performs one refresh call and one store write, contradicting
the claim that no refresh call is made at the boundary. -/
theorem c2_counterexample :
    tokBoundary.expires_at = envC2.now + 300 ∧
    (getValidTokens envC2 (initSt (some tokBoundary))).2.refreshCount = 1 ∧
    (getValidTokens envC2 (initSt (some tokBoundary))).2.storeCount = 1 :=
  ⟨rfl, rfl, rfl⟩

/-- Claim C2 (amended): for every stored credential record, `getValidTokens`
performs a refresh call exactly when `expires_at ≤ now + 300` (equivalently
`now ≥ expires_at - 300`), and returns the stored token without any refresh
call exactly when `expires_at > now + 300`; at the boundary
`expires_at = now + 300` a refresh IS performed. -/
theorem c2_refresh_boundary (env : Env α) (st : St) (t : QuickBooksTokens)
    (hstored : st.stored = some t) :
    (isTokenExpired t.expires_at env.now = true ↔ t.expires_at ≤ env.now + 300) ∧
    (t.expires_at ≤ env.now + 300 →
      (getValidTokens env st).2.refreshCount = st.refreshCount + 1) ∧
    (env.now + 300 < t.expires_at → getValidTokens env st = (.ok t, st)) := by
  have hiff : isTokenExpired t.expires_at env.now = true ↔
      t.expires_at ≤ env.now + 300 := by
    unfold isTokenExpired
    rw [decide_eq_true_iff]
    omega
  refine ⟨hiff, ?_, ?_⟩
  · intro h
    have hexp : isTokenExpired t.expires_at env.now = true := hiff.mpr h
    unfold getValidTokens
    rw [hstored]
    simp only [hexp, if_true]
    unfold refreshTokensM
    cases env.refreshes st.refreshIdx with
    | ok t2 => rfl
    | error e =>
      by_cases h401 : e.status = some 401
      · simp [h401, clearTokensM]
      · simp [h401]
  · intro h
    have hfresh : isTokenExpired t.expires_at env.now = false := by
      rcases Bool.eq_false_or_eq_true (isTokenExpired t.expires_at env.now) with hb | hb
      · exact absurd (hiff.mp hb) (by omega)
      · exact hb
    exact getValidTokens_fresh env st t hstored hfresh

/-- Witness for C2 (amended) at a concrete input: a token expiring at 1300
with the clock at 1000 is refreshed (boundary case),
and a token expiring at 1301 is returned untouched. -/
theorem c2_refresh_boundary_witness :
    (initSt (some tokBoundary)).stored = some tokBoundary ∧
    (getValidTokens envC2 (initSt (some tokBoundary))).2.refreshCount = 1 := by
  have h := c2_refresh_boundary envC2 (initSt (some tokBoundary)) tokBoundary rfl
  exact ⟨rfl, by rw [h.2.1 (by decide)]; rfl⟩

/-! ### Claim C8 -/

/-- Claim C8: every call to `checkRateLimit` first discards exactly the
recorded timestamps older than the 60 000 ms window (an entry `x` survives
iff `now - x < 60000`); if the count of the remaining timestamps has reached
the 500 ceiling it suspends for exactly
`60000 - (now - oldest) + 100` ms (the oldest being the head of the pruned
list) and otherwise suspends for nothing; in both cases it then appends the
current time as the new request timestamp. -/
theorem c8_checkRateLimit_spec (env : Env α) (st : St) :
    ((checkRateLimit env st).timestamps =
      pruneTimestamps st.timestamps env.nowMs ++ [env.nowMs]) ∧
    (∀ x : Int, x ∈ pruneTimestamps st.timestamps env.nowMs ↔
      x ∈ st.timestamps ∧ env.nowMs - x < 60000) ∧
    (RATE_LIMIT ≤ (pruneTimestamps st.timestamps env.nowMs).length →
      (checkRateLimit env st).sleeps = st.sleeps ++
        [RATE_LIMIT_WINDOW_MS -
          (env.nowMs - (pruneTimestamps st.timestamps env.nowMs).headI) + 100]) ∧
    ((pruneTimestamps st.timestamps env.nowMs).length < RATE_LIMIT →
      (checkRateLimit env st).sleeps = st.sleeps) := by
  refine ⟨checkRateLimit_timestamps env st, ?_, ?_, ?_⟩
  · intro x
    unfold pruneTimestamps RATE_LIMIT_WINDOW_MS
    simp [List.mem_filter]
  · intro h
    have hw : rateLimitWait st.timestamps env.nowMs =
        some (RATE_LIMIT_WINDOW_MS -
          (env.nowMs - (pruneTimestamps st.timestamps env.nowMs).headI) + 100) := by
      unfold rateLimitWait
      exact if_pos h
    rw [checkRateLimit_eq, hw]
  · intro h
    have hw : rateLimitWait st.timestamps env.nowMs = none := by
      unfold rateLimitWait
      exact if_neg (by omega)
    rw [checkRateLimit_eq, hw]

/-- Environment and state for the C8 witness: 500 recorded timestamps at 0,
clock at 10 ms. -/
def envC8 : Env Unit :=
  ⟨fun _ => ⟨200, none, (), none, none⟩, fun _ => .ok tokFresh, 0, 10⟩

/-- A state already holding 500 in-window timestamps. -/
def stC8 : St :=
  { initSt none with timestamps := List.replicate 500 (0 : Int) }

set_option maxRecDepth 20000 in
/-- Witness for C8 at a concrete input: with 500 in-window timestamps the
call suspends for exactly 60000 - (10 - 0) + 100 = 60090 ms and appends the
current time. -/
theorem c8_checkRateLimit_spec_witness :
    RATE_LIMIT ≤ (pruneTimestamps stC8.timestamps envC8.nowMs).length ∧
    (checkRateLimit envC8 stC8).sleeps = [60090] ∧
    (checkRateLimit envC8 stC8).timestamps =
      List.replicate 500 (0 : Int) ++ [10] := by
  have h := c8_checkRateLimit_spec envC8 stC8
  refine ⟨by decide, ?_, ?_⟩
  · rw [h.2.2.1 (by decide)]; rfl
  · rw [h.1]; rfl

/-! ### Step lemmas for the `request` retry machinery -/

theorem settleResponse_okCase (r : Resp α) (st : St) (h : respOk r = true) :
    settleResponse r st = (.ok r.okBody, st) := by
  unfold settleResponse
  simp [h]

theorem settleResponse_errCase (r : Resp α) (st : St) (h : respOk r = false) :
    settleResponse r st =
      (.error (.qb (handleQuickBooksError (rawError r))), st) := by
  unfold settleResponse
  simp [h]

theorem respOk_429 (r : Resp α) (h : r.status = 429) : respOk r = false := by
  unfold respOk
  rw [h]
  decide

theorem respOk_401 (r : Resp α) (h : r.status = 401) : respOk r = false := by
  unfold respOk
  rw [h]
  decide

theorem handle_rawError_429 (r : Resp α) (h : r.status = 429)
    (hover : r.errStatusField = none) :
    handleQuickBooksError (rawError r) =
      ⟨"QuickBooks API rate limit exceeded", QB_ERROR_CODES.RATE_LIMIT, some 429⟩ := by
  unfold rawError
  rw [hover, h]
  rfl

theorem handle_rawError_401 (r : Resp α) (h : r.status = 401)
    (hover : r.errStatusField = none) :
    handleQuickBooksError (rawError r) =
      ⟨"Unauthorized access to QuickBooks API", QB_ERROR_CODES.UNAUTHORIZED, some 401⟩ := by
  unfold rawError
  rw [hover, h]
  rfl

/-- A 429 response with retries left: the attempt records the backoff sleep
and hands the post-fetch state to the recursive call. -/
theorem requestAttempt_429_spec (env : Env α) (endpoint : String) (st : St)
    (t : QuickBooksTokens) (rc : Nat)
    (hstored : st.stored = some t)
    (hfresh : isTokenExpired t.expires_at env.now = false)
    (hlen : st.timestamps.length < RATE_LIMIT)
    (hst : (env.responses st.httpIdx).status = 429)
    (hrc : rc < MAX_RETRIES) :
    ∃ st₂, requestAttempt env endpoint rc st = .inr st₂ ∧
      st₂.stored = st.stored ∧
      st₂.httpIdx = st.httpIdx + 1 ∧
      st₂.refreshIdx = st.refreshIdx ∧
      st₂.refreshCount = st.refreshCount ∧
      st₂.storeCount = st.storeCount ∧
      st₂.clearCount = st.clearCount ∧
      st₂.sent = st.sent ++ [endpoint] ∧
      st₂.sleeps = st.sleeps ++ [delayOf (env.responses st.httpIdx) rc] ∧
      st₂.timestamps.length ≤ st.timestamps.length + 1 := by
  have hst1 : (checkRateLimit env st).stored = some t := by
    rw [checkRateLimit_stored, hstored]
  have hgvt := getValidTokens_fresh env (checkRateLimit env st) t hst1 hfresh
  have hslp := checkRateLimit_no_wait env st hlen
  have hcond : (env.responses (checkRateLimit env st).httpIdx).status = 429 ∧
      rc < MAX_RETRIES := by
    rw [checkRateLimit_httpIdx]; exact ⟨hst, hrc⟩
  have hkey : requestAttempt env endpoint rc st =
      .inr { (fetchM env endpoint (checkRateLimit env st)).2 with
             sleeps := (fetchM env endpoint (checkRateLimit env st)).2.sleeps ++
               [delayOf (env.responses (checkRateLimit env st).httpIdx) rc] } := by
    simp only [requestAttempt, hgvt, fetchM]
    rw [if_pos hcond]
  refine ⟨_, hkey, ?_, ?_, ?_, ?_, ?_, ?_, ?_, ?_, ?_⟩
  · simp [fetchM, hstored]
  · simp [fetchM]
  · simp [fetchM]
  · simp [fetchM]
  · simp [fetchM]
  · simp [fetchM]
  · simp [fetchM]
  · simp [fetchM, hslp]
  · simpa [fetchM] using checkRateLimit_timestamps_length_le env st

/-- A first 401 with tokens in the store and a succeeding refresh: the
attempt refreshes unconditionally, persists, and hands the updated state to
the recursive call; no backoff sleep is recorded. -/
theorem requestAttempt_401_ok_spec (env : Env α) (endpoint : String) (st : St)
    (t t2 : QuickBooksTokens) (rc : Nat)
    (hstored : st.stored = some t)
    (hfresh : isTokenExpired t.expires_at env.now = false)
    (hlen : st.timestamps.length < RATE_LIMIT)
    (hst : (env.responses st.httpIdx).status = 401)
    (hrc : rc < 1)
    (hrefresh : env.refreshes st.refreshIdx = .ok t2) :
    ∃ st₂, requestAttempt env endpoint rc st = .inr st₂ ∧
      st₂.stored = some t2 ∧
      st₂.httpIdx = st.httpIdx + 1 ∧
      st₂.refreshIdx = st.refreshIdx + 1 ∧
      st₂.refreshCount = st.refreshCount + 1 ∧
      st₂.storeCount = st.storeCount + 1 ∧
      st₂.clearCount = st.clearCount ∧
      st₂.sent = st.sent ++ [endpoint] ∧
      st₂.sleeps = st.sleeps ∧
      st₂.timestamps.length ≤ st.timestamps.length + 1 := by
  have hst1 : (checkRateLimit env st).stored = some t := by
    rw [checkRateLimit_stored, hstored]
  have hgvt := getValidTokens_fresh env (checkRateLimit env st) t hst1 hfresh
  have hslp := checkRateLimit_no_wait env st hlen
  have hcond1 : ¬ ((env.responses (checkRateLimit env st).httpIdx).status = 429 ∧
      rc < MAX_RETRIES) := by
    rw [checkRateLimit_httpIdx, hst]
    intro hcontra
    exact absurd hcontra.1 (by decide)
  have hcond2 : (env.responses (checkRateLimit env st).httpIdx).status = 401 ∧
      rc < 1 := by
    rw [checkRateLimit_httpIdx]; exact ⟨hst, hrc⟩
  have hrefresh1 : env.refreshes (checkRateLimit env st).refreshIdx = .ok t2 := by
    rw [checkRateLimit_refreshIdx]; exact hrefresh
  have hkey : requestAttempt env endpoint rc st =
      .inr (storeTokensM t2
        (refreshTokensM env (fetchM env endpoint (checkRateLimit env st)).2).2) := by
    simp only [requestAttempt, hgvt, fetchM]
    rw [if_neg hcond1, if_pos hcond2]
    simp only [hst1, refreshTokensM, hrefresh1]
  refine ⟨_, hkey, ?_, ?_, ?_, ?_, ?_, ?_, ?_, ?_, ?_⟩
  · simp [storeTokensM]
  · simp [storeTokensM, refreshTokensM, fetchM]
  · simp [storeTokensM, refreshTokensM, fetchM]
  · simp [storeTokensM, refreshTokensM, fetchM]
  · simp [storeTokensM, refreshTokensM, fetchM]
  · simp [storeTokensM, refreshTokensM, fetchM]
  · simp [storeTokensM, refreshTokensM, fetchM]
  · simp [storeTokensM, refreshTokensM, fetchM, hslp]
  · simpa [storeTokensM, refreshTokensM, fetchM] using
      checkRateLimit_timestamps_length_le env st

/-- A first 401 with tokens in the store and a refresh that fails: the
failure escapes to the catch and is normalized (the identity on a
`QuickBooksError`); `clearTokens` is NOT called on this path. -/
theorem requestAttempt_401_err_spec (env : Env α) (endpoint : String) (st : St)
    (t : QuickBooksTokens) (e : QuickBooksError) (rc : Nat)
    (hstored : st.stored = some t)
    (hfresh : isTokenExpired t.expires_at env.now = false)
    (hlen : st.timestamps.length < RATE_LIMIT)
    (hst : (env.responses st.httpIdx).status = 401)
    (hrc : rc < 1)
    (hrefresh : env.refreshes st.refreshIdx = .error e) :
    ∃ st₂, requestAttempt env endpoint rc st = .inl (.error (.qb e), st₂) ∧
      st₂.stored = st.stored ∧
      st₂.httpIdx = st.httpIdx + 1 ∧
      st₂.refreshCount = st.refreshCount + 1 ∧
      st₂.storeCount = st.storeCount ∧
      st₂.clearCount = st.clearCount ∧
      st₂.sleeps = st.sleeps := by
  have hst1 : (checkRateLimit env st).stored = some t := by
    rw [checkRateLimit_stored, hstored]
  have hgvt := getValidTokens_fresh env (checkRateLimit env st) t hst1 hfresh
  have hslp := checkRateLimit_no_wait env st hlen
  have hcond1 : ¬ ((env.responses (checkRateLimit env st).httpIdx).status = 429 ∧
      rc < MAX_RETRIES) := by
    rw [checkRateLimit_httpIdx, hst]
    intro hcontra
    exact absurd hcontra.1 (by decide)
  have hcond2 : (env.responses (checkRateLimit env st).httpIdx).status = 401 ∧
      rc < 1 := by
    rw [checkRateLimit_httpIdx]; exact ⟨hst, hrc⟩
  have hrefresh1 : env.refreshes (checkRateLimit env st).refreshIdx = .error e := by
    rw [checkRateLimit_refreshIdx]; exact hrefresh
  have hkey : requestAttempt env endpoint rc st =
      .inl (.error (.qb e),
        (refreshTokensM env (fetchM env endpoint (checkRateLimit env st)).2).2) := by
    simp only [requestAttempt, hgvt, fetchM]
    rw [if_neg hcond1, if_pos hcond2]
    simp only [hst1, refreshTokensM, hrefresh1]
    rfl
  refine ⟨_, hkey, ?_, ?_, ?_, ?_, ?_, ?_⟩
  · simp [refreshTokensM, fetchM, hstored]
  · simp [refreshTokensM, fetchM]
  · simp [refreshTokensM, fetchM]
  · simp [refreshTokensM, fetchM]
  · simp [refreshTokensM, fetchM]
  · simp [refreshTokensM, fetchM, hslp]

/-- No retry applies: the attempt settles the response directly. -/
theorem requestAttempt_settle_spec (env : Env α) (endpoint : String) (st : St)
    (t : QuickBooksTokens) (rc : Nat)
    (hstored : st.stored = some t)
    (hfresh : isTokenExpired t.expires_at env.now = false)
    (hlen : st.timestamps.length < RATE_LIMIT)
    (hc1 : ¬ ((env.responses st.httpIdx).status = 429 ∧ rc < MAX_RETRIES))
    (hc2 : ¬ ((env.responses st.httpIdx).status = 401 ∧ rc < 1)) :
    ∃ st₂, requestAttempt env endpoint rc st =
        .inl (settleResponse (env.responses st.httpIdx) st₂) ∧
      st₂.stored = st.stored ∧
      st₂.httpIdx = st.httpIdx + 1 ∧
      st₂.refreshIdx = st.refreshIdx ∧
      st₂.refreshCount = st.refreshCount ∧
      st₂.storeCount = st.storeCount ∧
      st₂.clearCount = st.clearCount ∧
      st₂.sent = st.sent ++ [endpoint] ∧
      st₂.sleeps = st.sleeps := by
  have hst1 : (checkRateLimit env st).stored = some t := by
    rw [checkRateLimit_stored, hstored]
  have hgvt := getValidTokens_fresh env (checkRateLimit env st) t hst1 hfresh
  have hslp := checkRateLimit_no_wait env st hlen
  have hcond1 : ¬ ((env.responses (checkRateLimit env st).httpIdx).status = 429 ∧
      rc < MAX_RETRIES) := by
    rw [checkRateLimit_httpIdx]; exact hc1
  have hcond2 : ¬ ((env.responses (checkRateLimit env st).httpIdx).status = 401 ∧
      rc < 1) := by
    rw [checkRateLimit_httpIdx]; exact hc2
  have hkey : requestAttempt env endpoint rc st =
      .inl (settleResponse (env.responses st.httpIdx)
        (fetchM env endpoint (checkRateLimit env st)).2) := by
    simp only [requestAttempt, hgvt, fetchM]
    rw [if_neg hcond1, if_neg hcond2, checkRateLimit_httpIdx]
  refine ⟨_, hkey, ?_, ?_, ?_, ?_, ?_, ?_, ?_, ?_⟩
  · simp [fetchM, hstored]
  · simp [fetchM]
  · simp [fetchM]
  · simp [fetchM]
  · simp [fetchM]
  · simp [fetchM]
  · simp [fetchM]
  · simp [fetchM, hslp]

theorem requestGo_succ_of_inr (env : Env α) (endpoint : String)
    (fuel rc : Nat) (st st₂ : St)
    (h : requestAttempt env endpoint rc st = .inr st₂) :
    requestGo env endpoint (fuel + 1) rc st =
      wrapCatch (requestGo env endpoint fuel (rc + 1) st₂) := by
  simp only [requestGo, h]

theorem requestGo_of_inl (env : Env α) (endpoint : String)
    (fuel rc : Nat) (st : St) (r : Except ErrVal α × St)
    (h : requestAttempt env endpoint rc st = .inl r) :
    requestGo env endpoint fuel rc st = r := by
  cases fuel <;> simp only [requestGo, h]

theorem wrapCatch_qb (q : QuickBooksError) (st : St) :
    wrapCatch ((Except.error (ErrVal.qb q) : Except ErrVal α), st) =
      ((Except.error (ErrVal.qb q) : Except ErrVal α), st) :=
  rfl

theorem wrapCatch_okCase (a : α) (st : St) :
    wrapCatch (.ok a, st) = (.ok a, st) :=
  rfl

/-! ### Claim C5 -/

/-- Claim C5: starting at retry count 0 with stored, unexpired credentials
and the rate window under its ceiling, four consecutive 429 responses lead to
exactly 3 retries — the sleep before the k-th retry being
`delayOf r k`, i.e. `Retry-After * 1000` ms when the header is present and
`1000 * 2 ^ k` ms otherwise — after which the 4th consecutive 429 is not
retried and surfaces as the normalized error with code `QB_RATE_LIMIT`
carrying status 429.  Exactly 4 HTTP attempts are made. -/
theorem c5_429_retry_schedule (env : Env α) (endpoint : String) (st : St)
    (t : QuickBooksTokens) (r0 r1 r2 r3 : Resp α)
    (hstored : st.stored = some t)
    (hfresh : isTokenExpired t.expires_at env.now = false)
    (hlen : st.timestamps.length + 4 ≤ RATE_LIMIT)
    (h0 : env.responses st.httpIdx = r0) (hs0 : r0.status = 429)
    (h1 : env.responses (st.httpIdx + 1) = r1) (hs1 : r1.status = 429)
    (h2 : env.responses (st.httpIdx + 2) = r2) (hs2 : r2.status = 429)
    (h3 : env.responses (st.httpIdx + 3) = r3) (hs3 : r3.status = 429)
    (hover : r3.errStatusField = none) :
    ∃ stF, request env endpoint st =
        (.error (.qb ⟨"QuickBooks API rate limit exceeded",
          QB_ERROR_CODES.RATE_LIMIT, some 429⟩), stF) ∧
      stF.httpIdx = st.httpIdx + 4 ∧
      stF.sleeps = st.sleeps ++ [delayOf r0 0, delayOf r1 1, delayOf r2 2] := by
  have hlen0 : st.timestamps.length < RATE_LIMIT := by omega
  have hst0 : (env.responses st.httpIdx).status = 429 := by rw [h0]; exact hs0
  obtain ⟨s1, hA1, hst1, hh1, _, _, _, _, _, hsl1, hts1⟩ :=
    requestAttempt_429_spec env endpoint st t 0 hstored hfresh hlen0 hst0 (by decide)
  have hstored1 : s1.stored = some t := by rw [hst1, hstored]
  have hlen1 : s1.timestamps.length < RATE_LIMIT := by omega
  have hst1r : (env.responses s1.httpIdx).status = 429 := by rw [hh1, h1]; exact hs1
  obtain ⟨s2, hA2, hst2, hh2, _, _, _, _, _, hsl2, hts2⟩ :=
    requestAttempt_429_spec env endpoint s1 t 1 hstored1 hfresh hlen1 hst1r (by decide)
  have hstored2 : s2.stored = some t := by rw [hst2, hstored1]
  have hlen2 : s2.timestamps.length < RATE_LIMIT := by omega
  have hidx2 : s2.httpIdx = st.httpIdx + 2 := by omega
  have hst2r : (env.responses s2.httpIdx).status = 429 := by rw [hidx2, h2]; exact hs2
  obtain ⟨s3, hA3, hst3, hh3, _, _, _, _, _, hsl3, hts3⟩ :=
    requestAttempt_429_spec env endpoint s2 t 2 hstored2 hfresh hlen2 hst2r (by decide)
  have hstored3 : s3.stored = some t := by rw [hst3, hstored2]
  have hlen3 : s3.timestamps.length < RATE_LIMIT := by omega
  have hidx3 : s3.httpIdx = st.httpIdx + 3 := by omega
  have hc1 : ¬ ((env.responses s3.httpIdx).status = 429 ∧ 3 < MAX_RETRIES) := by
    intro hcontra
    exact absurd hcontra.2 (by decide)
  have hc2 : ¬ ((env.responses s3.httpIdx).status = 401 ∧ 3 < 1) := by
    intro hcontra
    exact absurd hcontra.2 (by decide)
  obtain ⟨s4, hA4, _, hh4, _, _, _, _, _, hsl4⟩ :=
    requestAttempt_settle_spec env endpoint s3 t 3 hstored3 hfresh hlen3 hc1 hc2
  have hresp3 : env.responses s3.httpIdx = r3 := by rw [hidx3, h3]
  rw [hresp3, settleResponse_errCase r3 s4 (respOk_429 r3 hs3),
    handle_rawError_429 r3 hs3 hover] at hA4
  have hgo : request env endpoint st =
      (.error (.qb ⟨"QuickBooks API rate limit exceeded",
        QB_ERROR_CODES.RATE_LIMIT, some 429⟩), s4) := by
    show requestGo env endpoint (3 + 1) 0 st = _
    rw [requestGo_succ_of_inr env endpoint 3 0 st s1 hA1,
      show (3 : Nat) = 2 + 1 from rfl,
      requestGo_succ_of_inr env endpoint 2 1 s1 s2 hA2,
      show (2 : Nat) = 1 + 1 from rfl,
      requestGo_succ_of_inr env endpoint 1 2 s2 s3 hA3,
      requestGo_of_inl env endpoint 1 3 s3 _ hA4,
      wrapCatch_qb, wrapCatch_qb, wrapCatch_qb]
  refine ⟨s4, hgo, by omega, ?_⟩
  rw [h0] at hsl1
  rw [hh1, h1] at hsl2
  rw [hidx2, h2] at hsl3
  rw [hsl4, hsl3, hsl2, hsl1]
  simp

/-- A 429 response for the C5 witness, with payload type `Nat`. -/
def resp429 (ra : Option Int) : Resp Nat :=
  ⟨429, ra, 0, none, none⟩

/-- Environment for the C5 witness: first response carries `Retry-After: 2`,
the following three carry no header; all are 429. -/
def envC5 : Env Nat :=
  ⟨fun i => if i = 0 then resp429 (some 2) else resp429 none,
    fun _ => .ok tokFresh, 0, 0⟩

/-- Witness for C5 at a concrete input: the three backoff sleeps are
2000 ms (from the Retry-After header), then 2000 ms and 4000 ms
(exponential backoff at retries 1 and 2), and the 4th consecutive 429
surfaces as the QB_RATE_LIMIT error after exactly 4 attempts. -/
theorem c5_429_retry_schedule_witness :
    isTokenExpired tokFresh.expires_at envC5.now = false ∧
    ∃ stF, request envC5 "/invoice/1" (initSt (some tokFresh)) =
        (.error (.qb ⟨"QuickBooks API rate limit exceeded",
          QB_ERROR_CODES.RATE_LIMIT, some 429⟩), stF) ∧
      stF.httpIdx = 4 ∧
      stF.sleeps = [2000, 2000, 4000] := by
  refine ⟨by decide, ?_⟩
  exact c5_429_retry_schedule envC5 "/invoice/1" (initSt (some tokFresh))
    tokFresh (resp429 (some 2)) (resp429 none) (resp429 none) (resp429 none)
    rfl (by decide) (by decide) rfl rfl rfl rfl rfl rfl rfl rfl rfl

/-! ### Claim C6 -/

theorem respOk_iff (r : Resp α) :
    respOk r = true ↔ 200 ≤ r.status ∧ r.status < 300 := by
  unfold respOk
  exact decide_eq_true_iff

/-- Claim C6: starting at retry count 0 with stored, unexpired credentials,
a first 401 response triggers exactly one unconditional refresh (the stored
token is NOT expired, so the expiry check is bypassed), exactly one
`storeTokens` persist, and exactly one reissue of the same request
(2 HTTP attempts total, no backoff sleep).  If the reissue succeeds its body
is returned; if the reissue meets a second consecutive 401, no further
refresh is attempted and the normalized `QB_UNAUTHORIZED` error (status 401)
surfaces. -/
theorem c6_401_refresh_once (env : Env α) (endpoint : String) (st : St)
    (t t2 : QuickBooksTokens) (r0 r1 : Resp α)
    (hstored : st.stored = some t)
    (hfresh : isTokenExpired t.expires_at env.now = false)
    (hfresh2 : isTokenExpired t2.expires_at env.now = false)
    (hlen : st.timestamps.length + 2 ≤ RATE_LIMIT)
    (h0 : env.responses st.httpIdx = r0) (hs0 : r0.status = 401)
    (hrefresh : env.refreshes st.refreshIdx = .ok t2)
    (h1 : env.responses (st.httpIdx + 1) = r1) :
    (respOk r1 = true →
      ∃ stF, request env endpoint st = (.ok r1.okBody, stF) ∧
        stF.refreshCount = st.refreshCount + 1 ∧
        stF.storeCount = st.storeCount + 1 ∧
        stF.httpIdx = st.httpIdx + 2 ∧
        stF.sleeps = st.sleeps) ∧
    (r1.status = 401 → r1.errStatusField = none →
      ∃ stF, request env endpoint st =
          (.error (.qb ⟨"Unauthorized access to QuickBooks API",
            QB_ERROR_CODES.UNAUTHORIZED, some 401⟩), stF) ∧
        stF.refreshCount = st.refreshCount + 1 ∧
        stF.storeCount = st.storeCount + 1 ∧
        stF.httpIdx = st.httpIdx + 2 ∧
        stF.sleeps = st.sleeps) := by
  have hlen0 : st.timestamps.length < RATE_LIMIT := by omega
  have hst0 : (env.responses st.httpIdx).status = 401 := by rw [h0]; exact hs0
  obtain ⟨s1, hA1, hst1, hh1, _, hrc1, hsc1, _, _, hsl1, hts1⟩ :=
    requestAttempt_401_ok_spec env endpoint st t t2 0 hstored hfresh hlen0
      hst0 (by decide) hrefresh
  have hlen1 : s1.timestamps.length < RATE_LIMIT := by omega
  have hresp1 : env.responses s1.httpIdx = r1 := by rw [hh1, h1]
  constructor
  · intro hok
    have hc1 : ¬ ((env.responses s1.httpIdx).status = 429 ∧ 1 < MAX_RETRIES) := by
      rw [hresp1]
      intro hcontra
      have := (respOk_iff r1).mp hok
      omega
    have hc2 : ¬ ((env.responses s1.httpIdx).status = 401 ∧ 1 < 1) := by
      intro hcontra
      exact absurd hcontra.2 (by decide)
    obtain ⟨s2, hA2, _, hh2, _, hrc2, hsc2, _, _, hsl2⟩ :=
      requestAttempt_settle_spec env endpoint s1 t2 1 hst1 hfresh2 hlen1 hc1 hc2
    rw [hresp1, settleResponse_okCase r1 s2 hok] at hA2
    refine ⟨s2, ?_, by omega, by omega, by omega, by rw [hsl2, hsl1]⟩
    show requestGo env endpoint (3 + 1) 0 st = _
    rw [requestGo_succ_of_inr env endpoint 3 0 st s1 hA1,
      requestGo_of_inl env endpoint 3 1 s1 _ hA2,
      wrapCatch_okCase]
  · intro hs1r hover
    have hc1 : ¬ ((env.responses s1.httpIdx).status = 429 ∧ 1 < MAX_RETRIES) := by
      rw [hresp1, hs1r]
      intro hcontra
      exact absurd hcontra.1 (by decide)
    have hc2 : ¬ ((env.responses s1.httpIdx).status = 401 ∧ 1 < 1) := by
      intro hcontra
      exact absurd hcontra.2 (by decide)
    obtain ⟨s2, hA2, _, hh2, _, hrc2, hsc2, _, _, hsl2⟩ :=
      requestAttempt_settle_spec env endpoint s1 t2 1 hst1 hfresh2 hlen1 hc1 hc2
    rw [hresp1, settleResponse_errCase r1 s2 (respOk_401 r1 hs1r),
      handle_rawError_401 r1 hs1r hover] at hA2
    refine ⟨s2, ?_, by omega, by omega, by omega, by rw [hsl2, hsl1]⟩
    show requestGo env endpoint (3 + 1) 0 st = _
    rw [requestGo_succ_of_inr env endpoint 3 0 st s1 hA1,
      requestGo_of_inl env endpoint 3 1 s1 _ hA2,
      wrapCatch_qb]

/-- A 401 response with payload type `Nat`. -/
def resp401 : Resp Nat :=
  ⟨401, none, 0, none, none⟩

/-- Another far-future token, produced by the forced refresh in the C6
witness. -/
def tokFresh2 : QuickBooksTokens :=
  ⟨"access3", "refresh3", "realm", 1000000000, none⟩

/-- Environment for the C6 witness: every API response is a 401; the refresh
endpoint succeeds. -/
def envC6 : Env Nat :=
  ⟨fun _ => resp401, fun _ => .ok tokFresh2, 0, 0⟩

/-- Witness for C6 at a concrete input: the first 401 causes exactly one
refresh, one persist and one reissue; the second consecutive 401 surfaces
the QB_UNAUTHORIZED error with no further refresh (refreshCount stays 1). -/
theorem c6_401_refresh_once_witness :
    isTokenExpired tokFresh.expires_at envC6.now = false ∧
    ∃ stF, request envC6 "/invoice/1" (initSt (some tokFresh)) =
        (.error (.qb ⟨"Unauthorized access to QuickBooks API",
          QB_ERROR_CODES.UNAUTHORIZED, some 401⟩), stF) ∧
      stF.refreshCount = 1 ∧
      stF.storeCount = 1 ∧
      stF.httpIdx = 2 ∧
      stF.sleeps = [] := by
  refine ⟨by decide, ?_⟩
  exact (c6_401_refresh_once envC6 "/invoice/1" (initSt (some tokFresh))
    tokFresh tokFresh2 resp401 resp401 rfl (by decide) (by decide) (by decide)
    rfl rfl rfl rfl).2 rfl rfl

/-! ### Claim C4 -/

/-- The error thrown by `refreshTokens` on a 401 from the token endpoint. -/
def refreshErr401 : QuickBooksError :=
  ⟨"Failed to refresh tokens: 401", QB_ERROR_CODES.REFRESH_FAILED, some 401⟩

/-- Environment for the C4 counterexample: the API always answers 401 and the
refresh endpoint always fails with status 401. -/
def envC4 : Env Nat :=
  ⟨fun _ => resp401, fun _ => .error refreshErr401, 0, 0⟩

/-- Claim C4 counterexample: the refresh triggered by `request`'s 401 handler
fails with HTTP status 401, yet `clearTokens` is never invoked
(`clearCount = 0`), and the original refresh failure is surfaced -
contradicting the claim that in ANY operation that triggers a refresh, a
401-failing refresh invokes `clearTokens` exactly once. -/
theorem c4_counterexample :
    (request envC4 "/invoice/1" (initSt (some tokFresh))).1 =
      .error (.qb refreshErr401) ∧
    (request envC4 "/invoice/1" (initSt (some tokFresh))).2.clearCount = 0 ∧
    (request envC4 "/invoice/1" (initSt (some tokFresh))).2.refreshCount = 1 :=
  ⟨rfl, rfl, rfl⟩

/-- Claim C4 (amended): when the refresh performed inside `getValidTokens`
(triggered by the expiry check) fails with status 401, `clearTokens` is
invoked exactly once and the original refresh error propagates; the
unconditional refresh performed by `request`'s 401 handler, by contrast,
does NOT clear the store on a 401 refresh failure - the original refresh
error still propagates (unchanged through normalization), with no
`clearTokens` call. -/
theorem c4_clear_on_refresh_401 :
    (∀ (α : Type) (env : Env α) (st : St) (t : QuickBooksTokens)
      (e : QuickBooksError),
      st.stored = some t →
      isTokenExpired t.expires_at env.now = true →
      env.refreshes st.refreshIdx = .error e →
      e.status = some 401 →
      ∃ st', getValidTokens env st = (.error (.qb e), st') ∧
        st'.clearCount = st.clearCount + 1 ∧
        st'.stored = none ∧
        st'.refreshCount = st.refreshCount + 1) ∧
    (∀ (α : Type) (env : Env α) (endpoint : String) (st : St)
      (t : QuickBooksTokens) (e : QuickBooksError) (r0 : Resp α),
      st.stored = some t →
      isTokenExpired t.expires_at env.now = false →
      st.timestamps.length < RATE_LIMIT →
      env.responses st.httpIdx = r0 →
      r0.status = 401 →
      env.refreshes st.refreshIdx = .error e →
      ∃ st', request env endpoint st = (.error (.qb e), st') ∧
        st'.clearCount = st.clearCount ∧
        st'.refreshCount = st.refreshCount + 1) := by
  constructor
  · intro α env st t e hstored hexp hrefresh h401
    refine ⟨clearTokensM (refreshTokensM env st).2, ?_, ?_, ?_, ?_⟩
    · unfold getValidTokens
      rw [hstored]
      simp only [hexp, if_true, refreshTokensM, hrefresh]
      rw [if_pos h401]
    · simp [clearTokensM, refreshTokensM]
    · simp [clearTokensM, refreshTokensM]
    · simp [clearTokensM, refreshTokensM]
  · intro α env endpoint st t e r0 hstored hfresh hlen h0 hs0 hrefresh
    have hst0 : (env.responses st.httpIdx).status = 401 := by rw [h0]; exact hs0
    obtain ⟨s1, hA1, _, _, hrc1, _, hcc1, _⟩ :=
      requestAttempt_401_err_spec env endpoint st t e 0 hstored hfresh hlen
        hst0 (by decide) hrefresh
    refine ⟨s1, ?_, by omega, by omega⟩
    show requestGo env endpoint (3 + 1) 0 st = _
    rw [requestGo_of_inl env endpoint (3 + 1) 0 st _ hA1]

/-- Environment for the C4 witness: clock at 1000 s (so `tokBoundary` is
expired), refresh endpoint failing with status 401. -/
def envC4g : Env Unit :=
  ⟨fun _ => ⟨200, none, (), none, none⟩, fun _ => .error refreshErr401, 1000, 0⟩

/-- Witness for C4 (amended) at a concrete input: an expired stored token
whose refresh fails with 401 leads `getValidTokens` to exactly one
`clearTokens` call and surfaces the original refresh error. -/
theorem c4_clear_on_refresh_401_witness :
    isTokenExpired tokBoundary.expires_at envC4g.now = true ∧
    ∃ st', getValidTokens envC4g (initSt (some tokBoundary)) =
        (.error (.qb refreshErr401), st') ∧
      st'.clearCount = 1 ∧
      st'.stored = none ∧
      st'.refreshCount = 1 := by
  refine ⟨by decide, ?_⟩
  exact c4_clear_on_refresh_401.1 Unit envC4g (initSt (some tokBoundary))
    tokBoundary refreshErr401 rfl (by decide) rfl rfl

/-! ### Claim C3 -/

/-- Environment for the C3 counterexample: first response 429 (no header),
every later response 401; the refresh endpoint would succeed if called. -/
def envC3 : Env Nat :=
  ⟨fun i => if i = 0 then resp429 none else resp401,
    fun _ => .ok tokFresh2, 0, 0⟩

/-- Claim C3 counterexample: after one 429-triggered retry, the 401 met on
the second attempt is NOT retried - no refresh is attempted
(`refreshCount = 0`) and no reissue happens (exactly 2 HTTP attempts) -
because both ladders share the single `retryCount` counter, which is already
1 when the 401 arrives.  Under the claim the 401 would still have been
retried once (with a refresh and a third attempt). -/
theorem c3_counterexample :
    (request envC3 "/invoice/1" (initSt (some tokFresh))).1 =
      .error (.qb ⟨"Unauthorized access to QuickBooks API",
        QB_ERROR_CODES.UNAUTHORIZED, some 401⟩) ∧
    (request envC3 "/invoice/1" (initSt (some tokFresh))).2.refreshCount = 0 ∧
    (request envC3 "/invoice/1" (initSt (some tokFresh))).2.httpIdx = 2 :=
  ⟨rfl, rfl, rfl⟩

/-- Claim C3 (amended): the 429 and 401 retry ladders of `request` share the
single `retryCount` counter and therefore compose:
(a) when the first response is a 429 (retried, counter becomes 1) and the
second a 401, the 401 is NOT retried - no refresh, no further attempt - and
the normalized `QB_UNAUTHORIZED` error surfaces after exactly 2 attempts;
(b) conversely a 401-triggered retry consumes one of the 3 slots shared with
429 handling: after a first 401 (refresh + reissue, counter 1), only two
further 429 backoffs (at counter values 1 and 2) are possible before a 429
on the 4th attempt surfaces as `QB_RATE_LIMIT`. -/
theorem c3_shared_retry_counter :
    (∀ (α : Type) (env : Env α) (endpoint : String) (st : St)
      (t : QuickBooksTokens) (r0 r1 : Resp α),
      st.stored = some t →
      isTokenExpired t.expires_at env.now = false →
      st.timestamps.length + 2 ≤ RATE_LIMIT →
      env.responses st.httpIdx = r0 → r0.status = 429 →
      env.responses (st.httpIdx + 1) = r1 → r1.status = 401 →
      r1.errStatusField = none →
      ∃ stF, request env endpoint st =
          (.error (.qb ⟨"Unauthorized access to QuickBooks API",
            QB_ERROR_CODES.UNAUTHORIZED, some 401⟩), stF) ∧
        stF.refreshCount = st.refreshCount ∧
        stF.httpIdx = st.httpIdx + 2 ∧
        stF.sleeps = st.sleeps ++ [delayOf r0 0]) ∧
    (∀ (α : Type) (env : Env α) (endpoint : String) (st : St)
      (t t2 : QuickBooksTokens) (r0 r1 r2 r3 : Resp α),
      st.stored = some t →
      isTokenExpired t.expires_at env.now = false →
      isTokenExpired t2.expires_at env.now = false →
      st.timestamps.length + 4 ≤ RATE_LIMIT →
      env.responses st.httpIdx = r0 → r0.status = 401 →
      env.refreshes st.refreshIdx = .ok t2 →
      env.responses (st.httpIdx + 1) = r1 → r1.status = 429 →
      env.responses (st.httpIdx + 2) = r2 → r2.status = 429 →
      env.responses (st.httpIdx + 3) = r3 → r3.status = 429 →
      r3.errStatusField = none →
      ∃ stF, request env endpoint st =
          (.error (.qb ⟨"QuickBooks API rate limit exceeded",
            QB_ERROR_CODES.RATE_LIMIT, some 429⟩), stF) ∧
        stF.refreshCount = st.refreshCount + 1 ∧
        stF.httpIdx = st.httpIdx + 4 ∧
        stF.sleeps = st.sleeps ++ [delayOf r1 1, delayOf r2 2]) := by
  constructor
  · intro α env endpoint st t r0 r1 hstored hfresh hlen h0 hs0 h1 hs1 hover
    have hlen0 : st.timestamps.length < RATE_LIMIT := by omega
    have hst0 : (env.responses st.httpIdx).status = 429 := by rw [h0]; exact hs0
    obtain ⟨s1, hA1, hst1, hh1, _, hrc1, _, _, _, hsl1, hts1⟩ :=
      requestAttempt_429_spec env endpoint st t 0 hstored hfresh hlen0 hst0
        (by decide)
    have hstored1 : s1.stored = some t := by rw [hst1, hstored]
    have hlen1 : s1.timestamps.length < RATE_LIMIT := by omega
    have hresp1 : env.responses s1.httpIdx = r1 := by rw [hh1, h1]
    have hc1 : ¬ ((env.responses s1.httpIdx).status = 429 ∧ 1 < MAX_RETRIES) := by
      rw [hresp1, hs1]
      intro hcontra
      exact absurd hcontra.1 (by decide)
    have hc2 : ¬ ((env.responses s1.httpIdx).status = 401 ∧ 1 < 1) := by
      intro hcontra
      exact absurd hcontra.2 (by decide)
    obtain ⟨s2, hA2, _, hh2, _, hrc2, _, _, _, hsl2⟩ :=
      requestAttempt_settle_spec env endpoint s1 t 1 hstored1 hfresh hlen1 hc1 hc2
    rw [hresp1, settleResponse_errCase r1 s2 (respOk_401 r1 hs1),
      handle_rawError_401 r1 hs1 hover] at hA2
    refine ⟨s2, ?_, by omega, by omega, ?_⟩
    · show requestGo env endpoint (3 + 1) 0 st = _
      rw [requestGo_succ_of_inr env endpoint 3 0 st s1 hA1,
        requestGo_of_inl env endpoint 3 1 s1 _ hA2,
        wrapCatch_qb]
    · rw [h0] at hsl1
      rw [hsl2, hsl1]
  · intro α env endpoint st t t2 r0 r1 r2 r3 hstored hfresh hfresh2 hlen
      h0 hs0 hrefresh h1 hs1 h2 hs2 h3 hs3 hover
    have hlen0 : st.timestamps.length < RATE_LIMIT := by omega
    have hst0 : (env.responses st.httpIdx).status = 401 := by rw [h0]; exact hs0
    obtain ⟨s1, hA1, hst1, hh1, _, hrc1, hsc1, _, _, hsl1, hts1⟩ :=
      requestAttempt_401_ok_spec env endpoint st t t2 0 hstored hfresh hlen0
        hst0 (by decide) hrefresh
    have hlen1 : s1.timestamps.length < RATE_LIMIT := by omega
    have hst1r : (env.responses s1.httpIdx).status = 429 := by
      rw [hh1, h1]; exact hs1
    obtain ⟨s2, hA2, hst2, hh2, _, hrc2, _, _, _, hsl2, hts2⟩ :=
      requestAttempt_429_spec env endpoint s1 t2 1 hst1 hfresh2 hlen1 hst1r
        (by decide)
    have hstored2 : s2.stored = some t2 := by rw [hst2, hst1]
    have hlen2 : s2.timestamps.length < RATE_LIMIT := by omega
    have hidx2 : s2.httpIdx = st.httpIdx + 2 := by omega
    have hst2r : (env.responses s2.httpIdx).status = 429 := by
      rw [hidx2, h2]; exact hs2
    obtain ⟨s3, hA3, hst3, hh3, _, hrc3, _, _, _, hsl3, hts3⟩ :=
      requestAttempt_429_spec env endpoint s2 t2 2 hstored2 hfresh2 hlen2 hst2r
        (by decide)
    have hstored3 : s3.stored = some t2 := by rw [hst3, hstored2]
    have hlen3 : s3.timestamps.length < RATE_LIMIT := by omega
    have hidx3 : s3.httpIdx = st.httpIdx + 3 := by omega
    have hc1 : ¬ ((env.responses s3.httpIdx).status = 429 ∧ 3 < MAX_RETRIES) := by
      intro hcontra
      exact absurd hcontra.2 (by decide)
    have hc2 : ¬ ((env.responses s3.httpIdx).status = 401 ∧ 3 < 1) := by
      intro hcontra
      exact absurd hcontra.2 (by decide)
    obtain ⟨s4, hA4, _, hh4, _, hrc4, _, _, _, hsl4⟩ :=
      requestAttempt_settle_spec env endpoint s3 t2 3 hstored3 hfresh2 hlen3
        hc1 hc2
    have hresp3 : env.responses s3.httpIdx = r3 := by rw [hidx3, h3]
    rw [hresp3, settleResponse_errCase r3 s4 (respOk_429 r3 hs3),
      handle_rawError_429 r3 hs3 hover] at hA4
    refine ⟨s4, ?_, by omega, by omega, ?_⟩
    · show requestGo env endpoint (3 + 1) 0 st = _
      rw [requestGo_succ_of_inr env endpoint 3 0 st s1 hA1,
        show (3 : Nat) = 2 + 1 from rfl,
        requestGo_succ_of_inr env endpoint 2 1 s1 s2 hA2,
        show (2 : Nat) = 1 + 1 from rfl,
        requestGo_succ_of_inr env endpoint 1 2 s2 s3 hA3,
        requestGo_of_inl env endpoint 1 3 s3 _ hA4,
        wrapCatch_qb, wrapCatch_qb, wrapCatch_qb]
    · rw [hh1, h1] at hsl2
      rw [hidx2, h2] at hsl3
      rw [hsl4, hsl3, hsl2, hsl1]
      simp

/-- Witness for C3 (amended), part (a), at a concrete input: a 429 then a
401 yields the QB_UNAUTHORIZED error after exactly 2 attempts, one 1000 ms
backoff sleep, and zero refresh calls. -/
theorem c3_shared_retry_counter_witness :
    isTokenExpired tokFresh.expires_at envC3.now = false ∧
    ∃ stF, request envC3 "/invoice/1" (initSt (some tokFresh)) =
        (.error (.qb ⟨"Unauthorized access to QuickBooks API",
          QB_ERROR_CODES.UNAUTHORIZED, some 401⟩), stF) ∧
      stF.refreshCount = 0 ∧
      stF.httpIdx = 2 ∧
      stF.sleeps = [1000] := by
  refine ⟨by decide, ?_⟩
  exact c3_shared_retry_counter.1 Nat envC3 "/invoice/1" (initSt (some tokFresh))
    tokFresh (resp429 none) resp401 rfl (by decide) (by decide)
    rfl rfl rfl rfl rfl

/-! ### Step lemmas for the query page path -/

/-- A successful page fetch: the envelope is unwrapped; the state sees one
more HTTP call and the recorded body, the store is untouched and no refresh
is performed. -/
theorem fetchQueryPage_ok_spec (env : Env (List (String × List T)))
    (body : String) (st : St) (t : QuickBooksTokens)
    (hstored : st.stored = some t)
    (hfresh : isTokenExpired t.expires_at env.now = false)
    (hok : respOk (env.responses st.httpIdx) = true) :
    ∃ st', fetchQueryPage env body st =
        (.ok (unwrapEnvelope (env.responses st.httpIdx).okBody), st') ∧
      st'.stored = st.stored ∧
      st'.httpIdx = st.httpIdx + 1 ∧
      st'.refreshCount = st.refreshCount ∧
      st'.sent = st.sent ++ [body] := by
  have hgvt := getValidTokens_fresh env st t hstored hfresh
  have hcond : respOk (env.responses (checkRateLimit env st).httpIdx) = true := by
    rw [checkRateLimit_httpIdx]; exact hok
  have hkey : fetchQueryPage env body st =
      (.ok (unwrapEnvelope (env.responses st.httpIdx).okBody),
        (fetchM env body (checkRateLimit env st)).2) := by
    simp only [fetchQueryPage, hgvt, fetchM]
    rw [checkRateLimit_httpIdx] at hcond ⊢
    simp only [hcond, if_true]
  refine ⟨_, hkey, ?_, ?_, ?_, ?_⟩
  · simp [fetchM, hstored]
  · simp [fetchM]
  · simp [fetchM]
  · simp [fetchM]

/-- A failed page fetch: the non-ok response is surfaced immediately as a
normalized error - one HTTP call, no retry, no backoff sleep, no refresh. -/
theorem fetchQueryPage_err_spec (env : Env (List (String × List T)))
    (body : String) (st : St) (t : QuickBooksTokens)
    (hstored : st.stored = some t)
    (hfresh : isTokenExpired t.expires_at env.now = false)
    (hlen : st.timestamps.length < RATE_LIMIT)
    (hbad : respOk (env.responses st.httpIdx) = false) :
    ∃ st', fetchQueryPage env body st =
        (.error (.qb (handleQuickBooksError
          (rawError (env.responses st.httpIdx)))), st') ∧
      st'.stored = st.stored ∧
      st'.httpIdx = st.httpIdx + 1 ∧
      st'.refreshCount = st.refreshCount ∧
      st'.sleeps = st.sleeps ∧
      st'.sent = st.sent ++ [body] ∧
      st'.timestamps = pruneTimestamps st.timestamps env.nowMs ++ [env.nowMs] := by
  have hgvt := getValidTokens_fresh env st t hstored hfresh
  have hslp := checkRateLimit_no_wait env st hlen
  have hkey : fetchQueryPage env body st =
      (.error (.qb (handleQuickBooksError
          (rawError (env.responses st.httpIdx)))),
        (fetchM env body (checkRateLimit env st)).2) := by
    simp only [fetchQueryPage, hgvt, fetchM]
    rw [checkRateLimit_httpIdx, hbad]
    rfl
  refine ⟨_, hkey, ?_, ?_, ?_, ?_, ?_, ?_⟩
  · simp [fetchM, hstored]
  · simp [fetchM]
  · simp [fetchM]
  · simp [fetchM, hslp]
  · simp [fetchM]
  · simp [fetchM]

/-! ### Claim C1 -/

/-- Environment for the C1 counterexample: the first response is a 429 with
`Retry-After: 1`, every later response is an ok page containing one Invoice
record.  The payload type is the query envelope. -/
def envC1 : Env (List (String × List Nat)) :=
  ⟨fun i => if i = 0 then ⟨429, some 1, [], none, none⟩
    else ⟨200, none, [("Invoice", [7])], none, none⟩,
    fun _ => .ok tokFresh2, 0, 0⟩

/-- Claim C1 counterexample: on the very same response oracle (429 then ok),
`request` retries after a 1000 ms sleep and succeeds on the second attempt,
but `query` does NOT retry: it surfaces the normalized QB_RATE_LIMIT error
after exactly one attempt with no backoff sleep.  So a query call does not go
through the same retry path as a `request` call. -/
theorem c1_counterexample :
    (query envC1 "SELECT * FROM Invoice" (initSt (some tokFresh))).1 =
      .error (.qb ⟨"QuickBooks API rate limit exceeded",
        QB_ERROR_CODES.RATE_LIMIT, some 429⟩) ∧
    (query envC1 "SELECT * FROM Invoice" (initSt (some tokFresh))).2.httpIdx = 1 ∧
    (query envC1 "SELECT * FROM Invoice" (initSt (some tokFresh))).2.sleeps = [] ∧
    (request envC1 "/query" (initSt (some tokFresh))).1 =
      .ok [("Invoice", [7])] ∧
    (request envC1 "/query" (initSt (some tokFresh))).2.sleeps = [1000] :=
  ⟨rfl, rfl, rfl, rfl, rfl⟩

/-- Claim C1 (amended): every `queryAll` page request and every single-page
`query` goes through the same rate-limit and token-validity path as any
other call - a missing credential fails with the `QB_UNAUTHORIZED`
"No tokens found" error before any fetch, and each page fetch records a rate
window entry - but NOT through `request`'s retry path: any non-2xx response
(including 429 and 401) is surfaced immediately as a normalized error after
exactly one HTTP attempt, with no retry, no backoff sleep and no
401-triggered refresh. -/
theorem c1_query_rate_token_no_retry :
    (∀ (T : Type) (env : Env (List (String × List T))) (sql : String) (st : St),
      st.stored = none →
      query env sql st =
        (.error (.qb ⟨"No tokens found - please connect to QuickBooks first",
          QB_ERROR_CODES.UNAUTHORIZED, none⟩), st)) ∧
    (∀ (T : Type) (env : Env (List (String × List T))) (sql : String) (st : St)
      (t : QuickBooksTokens),
      st.stored = some t →
      isTokenExpired t.expires_at env.now = false →
      st.timestamps.length < RATE_LIMIT →
      respOk (env.responses st.httpIdx) = false →
      ∃ st', query env sql st =
          (.error (.qb (handleQuickBooksError
            (rawError (env.responses st.httpIdx)))), st') ∧
        st'.httpIdx = st.httpIdx + 1 ∧
        st'.sleeps = st.sleeps ∧
        st'.refreshCount = st.refreshCount ∧
        st'.timestamps = pruneTimestamps st.timestamps env.nowMs ++ [env.nowMs]) ∧
    (∀ (T : Type) (env : Env (List (String × List T))) (sql : String) (st : St)
      (t : QuickBooksTokens) (pageSize : Int) (fuel : Nat),
      st.stored = some t →
      isTokenExpired t.expires_at env.now = false →
      st.timestamps.length < RATE_LIMIT →
      respOk (env.responses st.httpIdx) = false →
      ∃ st', queryAll env sql pageSize (fuel + 1) st =
          some (.error (.qb (handleQuickBooksError
            (rawError (env.responses st.httpIdx)))), st') ∧
        st'.httpIdx = st.httpIdx + 1 ∧
        st'.sleeps = st.sleeps ∧
        st'.refreshCount = st.refreshCount) := by
  refine ⟨?_, ?_, ?_⟩
  · intro T env sql st hstored
    unfold query fetchQueryPage getValidTokens
    rw [hstored]
  · intro T env sql st t hstored hfresh hlen hbad
    obtain ⟨st', hkey, _, hh, hrc, hsl, _, hts⟩ :=
      fetchQueryPage_err_spec env sql st t hstored hfresh hlen hbad
    exact ⟨st', hkey, hh, hsl, hrc, hts⟩
  · intro T env sql st t pageSize fuel hstored hfresh hlen hbad
    obtain ⟨st', hkey, _, hh, hrc, hsl, _, _⟩ :=
      fetchQueryPage_err_spec env
        (paginatedSql sql 1 (min pageSize 1000)) st t hstored hfresh hlen hbad
    refine ⟨st', ?_, hh, hsl, hrc⟩
    unfold queryAll queryAllGo
    rw [hkey]

/-- Witness for C1 (amended) at a concrete input: a 429 response to a query
call surfaces the QB_RATE_LIMIT error after exactly one attempt, with no
backoff sleep and no refresh, while the rate-window entry is recorded. -/
theorem c1_query_rate_token_no_retry_witness :
    respOk (envC1.responses 0) = false ∧
    ∃ st', query envC1 "SELECT * FROM Invoice" (initSt (some tokFresh)) =
        (.error (.qb ⟨"QuickBooks API rate limit exceeded",
          QB_ERROR_CODES.RATE_LIMIT, some 429⟩), st') ∧
      st'.httpIdx = 1 ∧
      st'.sleeps = [] ∧
      st'.refreshCount = 0 ∧
      st'.timestamps = [0] := by
  refine ⟨by decide, ?_⟩
  exact c1_query_rate_token_no_retry.2.1 Nat envC1 "SELECT * FROM Invoice"
    (initSt (some tokFresh)) tokFresh rfl (by decide) (by decide) (by decide)

/-! ### Claim C7 -/

/-- One-step unfolding of the pagination loop (used to unfold exactly one
iteration at a time). -/
theorem queryAllGo_succ_eq (env : Env (List (String × List T))) (sql : String)
    (maxResults : Int) (fuel : Nat) (startPosition : Int) (allResults : List T)
    (st : St) :
    queryAllGo env sql maxResults (fuel + 1) startPosition allResults st =
      match fetchQueryPage env (paginatedSql sql startPosition maxResults) st with
      | (.error e, st) => some (.error e, st)
      | (.ok pageResults, st) =>
        if (pageResults.length : Int) < maxResults then
          some (.ok (allResults ++ pageResults), st)
        else
          queryAllGo env sql maxResults fuel (startPosition + maxResults)
            (allResults ++ pageResults) st :=
  rfl

/-- Unrolling the list of paginated query texts by one page. -/
theorem range_map_pag (sql : String) (p : Int) (n : Nat) (start : Int) :
    (List.range (n + 1)).map
        (fun k : Nat => paginatedSql sql (start + (k : Int) * p) p) =
      paginatedSql sql start p ::
        (List.range n).map
          (fun k : Nat => paginatedSql sql (start + p + (k : Int) * p) p) := by
  rw [List.range_succ_eq_map, List.map_cons, List.map_map]
  congr 1
  · norm_num
  · apply List.map_congr_left
    intro k _
    show paginatedSql sql (start + ((k + 1 : Nat) : Int) * p) p = _
    congr 1
    push_cast
    ring

/-- The pagination loop over a server whose pages tile a dataset: all pages
before the last have length exactly `p`, the last is strictly shorter.
Starting anywhere, the loop consumes exactly the pages, advances the start
position by `p` per full page, and returns the accumulated concatenation. -/
theorem queryAllGo_pages_spec (env : Env (List (String × List T)))
    (sql : String) (p : Int) (t : QuickBooksTokens)
    (hfresh : isTokenExpired t.expires_at env.now = false) :
    ∀ (pagesInit : List (List T)) (lastPage : List T) (start : Int) (st : St),
      st.stored = some t →
      (∀ j : Nat, j < pagesInit.length + 1 →
        respOk (env.responses (st.httpIdx + j)) = true ∧
        unwrapEnvelope (env.responses (st.httpIdx + j)).okBody =
          (pagesInit ++ [lastPage]).getD j []) →
      (∀ pg ∈ pagesInit, (pg.length : Int) = p) →
      (lastPage.length : Int) < p →
      ∀ acc : List T,
      ∃ st', queryAllGo env sql p (pagesInit.length + 1) start acc st =
          some (.ok (acc ++ (pagesInit ++ [lastPage]).flatten), st') ∧
        st'.httpIdx = st.httpIdx + (pagesInit.length + 1) ∧
        st'.sent = st.sent ++ (List.range (pagesInit.length + 1)).map
          (fun k : Nat => paginatedSql sql (start + (k : Int) * p) p) := by
  intro pagesInit
  induction pagesInit with
  | nil =>
    intro lastPage start st hstored horacle hfull hlast acc
    have h0 := horacle 0 (by omega)
    have hok0 : respOk (env.responses st.httpIdx) = true := by
      simpa using h0.1
    have hpage : unwrapEnvelope (env.responses st.httpIdx).okBody = lastPage := by
      simpa using h0.2
    obtain ⟨st', hkey, hst', hh', _, hsent'⟩ :=
      fetchQueryPage_ok_spec env (paginatedSql sql start p) st t hstored
        hfresh hok0
    refine ⟨st', ?_, by simpa using hh', ?_⟩
    · show queryAllGo env sql p (List.length [] + 1) start acc st = _
      rw [queryAllGo_succ_eq, hkey, hpage]
      simp [hlast]
    · rw [hsent']
      congr 1
      rw [show List.length ([] : List (List T)) = 0 from rfl]
      simp [List.range_succ]
  | cons pg rest ih =>
    intro lastPage start st hstored horacle hfull hlast acc
    have h0 := horacle 0 (by omega)
    have hok0 : respOk (env.responses st.httpIdx) = true := by
      simpa using h0.1
    have hpage : unwrapEnvelope (env.responses st.httpIdx).okBody = pg := by
      simpa using h0.2
    obtain ⟨st', hkey, hst', hh', _, hsent'⟩ :=
      fetchQueryPage_ok_spec env (paginatedSql sql start p) st t hstored
        hfresh hok0
    have hpg_len : (pg.length : Int) = p := hfull pg (by simp)
    have hcond : ¬ ((pg.length : Int) < p) := by omega
    have hstored'' : st'.stored = some t := by rw [hst', hstored]
    have horacle' : ∀ j : Nat, j < rest.length + 1 →
        respOk (env.responses (st'.httpIdx + j)) = true ∧
        unwrapEnvelope (env.responses (st'.httpIdx + j)).okBody =
          (rest ++ [lastPage]).getD j [] := by
      intro j hj
      have hidx : st'.httpIdx + j = st.httpIdx + (j + 1) := by omega
      have := horacle (j + 1) (by simp only [List.length_cons]; omega)
      rw [hidx]
      simpa using this
    have hfull' : ∀ pg2 ∈ rest, (pg2.length : Int) = p := by
      intro pg2 h
      exact hfull pg2 (by simp [h])
    obtain ⟨stF, hrec, hhF, hsentF⟩ :=
      ih lastPage (start + p) st' hstored'' horacle' hfull' hlast (acc ++ pg)
    refine ⟨stF, ?_, ?_, ?_⟩
    · show queryAllGo env sql p (List.length (pg :: rest) + 1) start acc st = _
      simp only [List.length_cons]
      rw [queryAllGo_succ_eq, hkey, hpage]
      dsimp only
      rw [if_neg hcond, hrec]
      simp [List.append_assoc]
    · simp only [List.length_cons]
      omega
    · rw [hsentF, hsent']
      simp only [List.length_cons]
      conv_rhs => rw [range_map_pag]
      simp [List.append_assoc]

/-- Claim C7: for every base query and every page size `1 ≤ p ≤ 1000`,
`queryAll` starts at position 1, advances the start position by `p` after
every page of length exactly `p`, terminates exactly when a page is strictly
shorter than `p` (the oracle hypothesis constrains only the unwrapped pages,
so any `totalCount` metadata is irrelevant), and returns the concatenation
of all pages in server order.  With `k` full pages and one short page it
issues exactly `k + 1` query calls whose texts carry start positions
`1, 1 + p, ..., 1 + k*p`. -/
theorem c7_queryAll_pagination (env : Env (List (String × List T)))
    (sql : String) (p : Int) (t : QuickBooksTokens)
    (pagesInit : List (List T)) (lastPage : List T)
    (hp1 : 1 ≤ p) (hp2 : p ≤ 1000)
    (hfresh : isTokenExpired t.expires_at env.now = false)
    (horacle : ∀ j : Nat, j < pagesInit.length + 1 →
      respOk (env.responses j) = true ∧
      unwrapEnvelope (env.responses j).okBody =
        (pagesInit ++ [lastPage]).getD j [])
    (hfull : ∀ pg ∈ pagesInit, (pg.length : Int) = p)
    (hlast : (lastPage.length : Int) < p) :
    ∃ st', queryAll env sql p (pagesInit.length + 1) (initSt (some t)) =
        some (.ok ((pagesInit ++ [lastPage]).flatten), st') ∧
      st'.httpIdx = pagesInit.length + 1 ∧
      st'.sent = (List.range (pagesInit.length + 1)).map
        (fun k : Nat => paginatedSql sql (1 + (k : Int) * p) p) := by
  have horacle0 : ∀ j : Nat, j < pagesInit.length + 1 →
      respOk (env.responses ((initSt (some t)).httpIdx + j)) = true ∧
      unwrapEnvelope (env.responses ((initSt (some t)).httpIdx + j)).okBody =
        (pagesInit ++ [lastPage]).getD j [] := by
    intro j hj
    simpa [initSt] using horacle j hj
  obtain ⟨st', hrun, hh, hsent⟩ :=
    queryAllGo_pages_spec env sql p t hfresh pagesInit lastPage 1
      (initSt (some t)) rfl horacle0 hfull hlast []
  refine ⟨st', ?_, by simpa [initSt] using hh, by simpa [initSt] using hsent⟩
  unfold queryAll
  rw [min_eq_left hp2]
  simpa using hrun

/-- An ok page response for the C7 witness. -/
def pageResp (pg : List Nat) : Resp (List (String × List Nat)) :=
  ⟨200, none, [("Invoice", pg)], none, none⟩

/-- Environment for the C7 witness: a fixed 5-record dataset served in pages
of 2 at positions 1, 3 and a short page of 1 at position 5. -/
def envC7 : Env (List (String × List Nat)) :=
  ⟨fun i => if i = 0 then pageResp [10, 20]
    else if i = 1 then pageResp [30, 40]
    else pageResp [50],
    fun _ => .ok tokFresh2, 0, 0⟩

/-- Witness for C7 at the concrete input of the claim: pageSize 2 over a
5-record dataset issues exactly 3 query calls with start positions 1, 3, 5
and returns all 5 records in server order. -/
theorem c7_queryAll_pagination_witness :
    (1 : Int) ≤ 2 ∧
    ∃ st', queryAll envC7 "SELECT * FROM Invoice" 2 3
        (initSt (some tokFresh)) =
        some (.ok [10, 20, 30, 40, 50], st') ∧
      st'.httpIdx = 3 ∧
      st'.sent =
        ["SELECT * FROM Invoice STARTPOSITION 1 MAXRESULTS 2",
         "SELECT * FROM Invoice STARTPOSITION 3 MAXRESULTS 2",
         "SELECT * FROM Invoice STARTPOSITION 5 MAXRESULTS 2"] := by
  refine ⟨by decide, ?_⟩
  have h := c7_queryAll_pagination envC7 "SELECT * FROM Invoice" 2 tokFresh
    [[10, 20], [30, 40]] [50] (by decide) (by decide) (by decide)
    (by intro j hj
        simp only [List.length_cons, List.length_nil] at hj
        interval_cases j <;> exact ⟨rfl, rfl⟩)
    (by intro pg hpg
        simp only [List.mem_cons, List.not_mem_nil, or_false] at hpg
        rcases hpg with h1 | h1 <;> rw [h1] <;> rfl)
    (by decide)
  obtain ⟨st', hrun, hh, hsent⟩ := h
  exact ⟨st', by simpa using hrun, by simpa using hh, by
    rw [hsent]; rfl⟩

/-! ### Claim C10 -/

/-- With a non-positive effective page size, the loop's exit test
`pageResults.length < maxResults` can never hold (lengths are ≥ 0), so the
loop body runs forever: no amount of fuel completes it, as long as the
server keeps answering ok. -/
theorem queryAllGo_nonpos_none (env : Env (List (String × List T)))
    (sql : String) (maxResults : Int) (t : QuickBooksTokens)
    (hmax : maxResults ≤ 0)
    (hfresh : isTokenExpired t.expires_at env.now = false)
    (hallok : ∀ i : Nat, respOk (env.responses i) = true) :
    ∀ (fuel : Nat) (start : Int) (acc : List T) (st : St),
      st.stored = some t →
      queryAllGo env sql maxResults fuel start acc st = none := by
  intro fuel
  induction fuel with
  | zero =>
    intro start acc st _
    rfl
  | succ n ih =>
    intro start acc st hstored
    obtain ⟨st', hkey, hst', _, _, _⟩ :=
      fetchQueryPage_ok_spec env (paginatedSql sql start maxResults) st t
        hstored hfresh (hallok st.httpIdx)
    have hcond : ¬ (((unwrapEnvelope
        (env.responses st.httpIdx).okBody).length : Int) < maxResults) := by
      have : (0 : Int) ≤ ((unwrapEnvelope
          (env.responses st.httpIdx).okBody).length : Int) := Int.ofNat_nonneg _
      omega
    have hstored' : st'.stored = some t := by rw [hst', hstored]
    rw [queryAllGo_succ_eq, hkey]
    dsimp only
    rw [if_neg hcond]
    exact ih (start + maxResults) _ st' hstored'

/-- Claim C10: `queryAll` caps the page size only from above
(`min pageSize 1000`, which for `pageSize ≤ 0` is `pageSize` itself), so for
every non-positive `pageSize` the loop's sole exit condition is
unsatisfiable and `queryAll` never terminates - no fuel bound completes the
loop - even when every returned page is empty (the hypotheses allow
arbitrary ok pages, empty ones included). -/
theorem c10_queryAll_nonpos_diverges (env : Env (List (String × List T)))
    (sql : String) (pageSize : Int) (t : QuickBooksTokens) (st : St)
    (hp : pageSize ≤ 0)
    (hstored : st.stored = some t)
    (hfresh : isTokenExpired t.expires_at env.now = false)
    (hallok : ∀ i : Nat, respOk (env.responses i) = true) :
    min pageSize 1000 = pageSize ∧
    ∀ fuel : Nat, queryAll env sql pageSize fuel st = none := by
  have hmin : min pageSize 1000 = pageSize := min_eq_left (by omega)
  refine ⟨hmin, ?_⟩
  intro fuel
  unfold queryAll
  rw [hmin]
  exact queryAllGo_nonpos_none env sql pageSize t hp hfresh hallok fuel 1 [] st
    hstored

/-- Environment for the C10 witness: every response is an ok page that is
EMPTY. -/
def envC10 : Env (List (String × List Nat)) :=
  ⟨fun _ => pageResp [], fun _ => .ok tokFresh2, 0, 0⟩

/-- Witness for C10 at a concrete input: with pageSize 0 and a server that
always returns an empty page, no fuel (here 5) completes the loop. -/
theorem c10_queryAll_nonpos_diverges_witness :
    (0 : Int) ≤ 0 ∧
    queryAll envC10 "SELECT * FROM Invoice" 0 5 (initSt (some tokFresh)) =
      none := by
  refine ⟨by decide, ?_⟩
  exact (c10_queryAll_nonpos_diverges envC10 "SELECT * FROM Invoice" 0
    tokFresh (initSt (some tokFresh)) (by decide) rfl (by decide)
    (fun _ => rfl)).2 5

end QB
